import Mathlib

/-!
# Verification of the BlogPost session-manager (access/refresh token lifecycle)

Shallow embedding of the authentication routes of `src/routes/MainAuth.js`
and the middlewares `src/middlewares/MainAuthMiddlewares.js` and
`src/middlewares/MainPostsMiddlewares.js`.

Modelling conventions:
* Time is a single `Nat` clock in seconds (`Date.now()` / JWT `iat`/`exp`
  normalised to one unit; the millisecond factors of the source only scale
  the constants and never mix units inside one comparison).
* `jwt.sign(payload, secret, {expiresIn})` is HMAC signing, injective on
  (claims, secret): a signed token is modelled as its claims record
  (`user_ID`, `iat`, `exp`) together with the signing secret.  Two `sign`
  calls with equal claims and secret yield the identical token string, and
  distinct claims yield distinct strings.
* `jwt.verify(token, secret)` succeeds iff the token was signed with
  `secret` and the clock has not reached the embedded `exp`
  (jsonwebtoken raises `TokenExpiredError` when `now >= exp`).
* The Prisma `refreshToken` table is a list of rows; `findUnique` by token
  is `List.find?`, `deleteMany`/`delete` by a key is `List.filter`,
  `create` appends.  `prisma.refreshToken.delete` of an absent row throws
  (Prisma error P2025), which the route does not catch, so that path is an
  internal fault (HTTP 500), distinguished from the handled 403 branches.
* `bcrypt.hash` is modelled as an injective tagging function and
  `bcrypt.compare plain hash` as `bcryptHash plain = hash`.
-/

namespace BlogPost

/-- The two signing secrets of the source: `"jwtsupersecretkey"` for access
tokens and `"refreshTokenSecretKey"` for refresh tokens. -/
inductive Secret where
  | jwtSecret
  | refreshSecret
  deriving DecidableEq, Repr

/-- A signed JWT.  HMAC signing is injective on (claims, secret), so the
token string is identified with its claims plus the secret that signed it.
`user_ID` is the claim set by `jwt.sign({ user_ID: ... })`. -/
structure Token where
  user_ID : Nat
  iat : Nat
  exp : Nat
  secret : Secret
  deriving DecidableEq, Repr

/-- `jwt.sign({user_ID}, secret, {expiresIn: ttl})` at clock `now`. -/
def jwtSign (userId : Nat) (secret : Secret) (now ttl : Nat) : Token :=
  { user_ID := userId, iat := now, exp := now + ttl, secret := secret }

/-- `jwt.verify(t, secret)` at clock `now`: returns the decoded payload on
success, `none` on signature mismatch or expiry (`now ≥ exp`). -/
def jwtVerify (t : Token) (secret : Secret) (now : Nat) : Option Token :=
  if t.secret = secret ∧ now < t.exp then some t else none

/-- One row of the Prisma `refreshToken` table: `{ token, userId, expiresAt }`. -/
structure RefreshRecord where
  token : Token
  userId : Nat
  expiresAt : Nat
  deriving DecidableEq, Repr

/-- The persisted `refreshToken` table. -/
abbrev Store := List RefreshRecord

/-- `prisma.refreshToken.findUnique({ where: { token } })`. -/
def findUnique (s : Store) (t : Token) : Option RefreshRecord :=
  s.find? fun r => r.token = t

/-- `prisma.refreshToken.deleteMany({ where: { token } })` (and the effect
of `delete` when the row exists): removes every row with this token. -/
def deleteWhereToken (s : Store) (t : Token) : Store :=
  s.filter fun r => r.token ≠ t

/-- `prisma.refreshToken.deleteMany({ where: { userId } })`. -/
def deleteManyUser (s : Store) (u : Nat) : Store :=
  s.filter fun r => r.userId ≠ u

/-- `prisma.refreshToken.create({ data: ... })`: inserts a row. -/
def createRecord (s : Store) (r : RefreshRecord) : Store :=
  s ++ [r]

/-- One row of the Prisma `user` table (the fields login reads). -/
structure User where
  id : Nat
  email : String
  password : String
  deriving DecidableEq, Repr

/-- `bcrypt.hash(p, 10)`: salted adaptive hash, modelled injectively. -/
def bcryptHash (p : String) : String :=
  "bcrypt$10$" ++ p

/-- `bcrypt.compare(plain, stored)`. -/
def bcryptCompare (plain stored : String) : Bool :=
  bcryptHash plain == stored

/-- Time-unit constants (seconds). -/
def MIN : Nat := 60

def HOUR : Nat := 3600

def DAY : Nat := 86400

/-- A JSON error envelope `{ status: "error", message, code }` together with
the HTTP status, as the login pipeline emits on its failure paths. -/
structure ErrorResponse where
  httpStatus : Nat
  body_status : String
  message : String
  code : Nat
  deriving DecidableEq, Repr

/-- Outcome of `POST /login` (`src/routes/MainAuth.js` lines 40–97 with its
middlewares `validateLoginInput` and `getUserByEmail`). -/
inductive LoginResult where
  | failure (resp : ErrorResponse)
  | success (accessToken refreshToken : Token)
  deriving DecidableEq, Repr

/-- `POST /login`: `validateLoginInput` → `getUserByEmail` → compare the
password hash → `deleteMany({userId})` → sign access (15 m) and refresh
(30 d) tokens → persist the refresh row with `expiresAt = now + 30 d`.
Returns the result together with the updated `refreshToken` table. -/
def login (users : List User) (s : Store) (email password : String)
    (now : Nat) : LoginResult × Store :=
  if email = "" ∨ password = "" then
    (.failure ⟨400, "error", "All fields are required", 400⟩, s)
  else
    match users.find? fun u => u.email == email with
    | none => (.failure ⟨401, "error", "User doesn't exist", 401⟩, s)
    | some user =>
      if ¬ bcryptCompare password user.password then
        (.failure ⟨401, "error", "Password is incorrect", 401⟩, s)
      else
        let s1 := deleteManyUser s user.id
        let accessToken := jwtSign user.id .jwtSecret now (15 * MIN)
        let refreshTok := jwtSign user.id .refreshSecret now (30 * DAY)
        let s2 := createRecord s1 ⟨refreshTok, user.id, now + 30 * DAY⟩
        (.success accessToken refreshTok, s2)

/-- Outcome of `POST /refreshToken` (`src/routes/MainAuth.js` lines 99–178).
`noToken` is the 401 "No refresh token provided" branch, `invalidToken` the
403 "Invalid refresh token" branch (signature/expiry verification failed),
`expiredOrInvalid` the 403 "Refresh token expired or invalid" branch
(record absent or persisted expiry passed). -/
inductive RefreshResult where
  | noToken
  | invalidToken
  | expiredOrInvalid
  | success (newAccessToken newRefreshToken : Token)
  deriving DecidableEq, Repr

/-- `POST /refreshToken`: read the refresh cookie, `jwt.verify` it against
the refresh secret, `findUnique` its row, reject if absent or
`now > expiresAt`, else delete the row, sign a new refresh (30 d) and
access (1 h) token for `payload.user_ID`, and persist the new row. -/
def refreshToken (s : Store) (cookie : Option Token) (now : Nat) :
    RefreshResult × Store :=
  match cookie with
  | none => (.noToken, s)
  | some old =>
    match jwtVerify old .refreshSecret now with
    | none => (.invalidToken, s)
    | some payload =>
      match findUnique s old with
      | none => (.expiredOrInvalid, s)
      | some stored =>
        if now > stored.expiresAt then
          (.expiredOrInvalid, s)
        else
          let s1 := deleteWhereToken s old
          let newRefreshToken :=
            jwtSign payload.user_ID .refreshSecret now (30 * DAY)
          let newAccessToken :=
            jwtSign payload.user_ID .jwtSecret now (1 * HOUR)
          let s2 :=
            createRecord s1 ⟨newRefreshToken, payload.user_ID, now + 30 * DAY⟩
          (.success newAccessToken newRefreshToken, s2)

/-- Outcome of `GET /logout` (`src/routes/MainAuth.js` lines 180–258).
`noUser` is the 400 "No user is logged in" branch, `invalidToken` the 403
"Invalid token" branch, `expiredOrInvalid` the 403 "Expired or invalid
token" branch, `success` the 200 branch. -/
inductive LogoutResult where
  | noUser
  | invalidToken
  | expiredOrInvalid
  | success
  deriving DecidableEq, Repr

/-- `GET /logout`: read the refresh cookie, `jwt.verify` it, `findUnique`
its row, reject if absent or `now > expiresAt`, else
`deleteMany({ token })`. -/
def logout (s : Store) (cookie : Option Token) (now : Nat) :
    LogoutResult × Store :=
  match cookie with
  | none => (.noUser, s)
  | some tok =>
    match jwtVerify tok .refreshSecret now with
    | none => (.invalidToken, s)
    | some _ =>
      match findUnique s tok with
      | none => (.expiredOrInvalid, s)
      | some stored =>
        if now > stored.expiresAt then
          (.expiredOrInvalid, s)
        else
          (.success, deleteWhereToken s tok)

/-- Outcome of the `verifyAuth` middleware
(`src/middlewares/MainPostsMiddlewares.js` lines 17–62). -/
inductive AuthResult where
  | noToken
  | invalidToken
  | tokenExpired
  | userNotFound
  | success (user_ID : Nat)
  deriving DecidableEq, Repr

/-- `verifyAuth`: read the access cookie, `jwt.verify` it against
`JWT_SECRET` (default `"jwtsupersecretkey"`), then
`prisma.user.findUnique({ where: { id: decoded.user_ID } })`, rejecting
with 401 "User not found" when the row is absent; on success attaches the
decoded claims (`req.user = decoded`). -/
def verifyAuth (users : List User) (cookie : Option Token) (now : Nat) :
    AuthResult :=
  match cookie with
  | none => .noToken
  | some tok =>
    if tok.secret ≠ .jwtSecret then .invalidToken
    else if tok.exp ≤ now then .tokenExpired
    else
      match users.find? fun u => u.id == tok.user_ID with
      | none => .userNotFound
      | some _ => .success tok.user_ID

/-! ## The session state machine: reachable stores -/

/-- One transition of the persisted `refreshToken` table: the store effect
of a single `POST /login` (Issue), `POST /refreshToken` (Refresh) or
`GET /logout` (Revoke) request, with arbitrary request data and clock. -/
inductive SessionStep : Store → Store → Prop where
  | loginStep (users : List User) (s : Store) (e p : String) (now : Nat) :
      SessionStep s (login users s e p now).2
  | refreshStep (s : Store) (c : Option Token) (now : Nat) :
      SessionStep s (refreshToken s c now).2
  | logoutStep (s : Store) (c : Option Token) (now : Nat) :
      SessionStep s (logout s c now).2

/-- Stores reachable from the empty table by login/refresh/logout. -/
inductive ReachableStore : Store → Prop where
  | empty : ReachableStore []
  | step {s s' : Store} : ReachableStore s → SessionStep s s' →
      ReachableStore s'

/-- The inductive store invariant: every row's `userId` column matches the
`user_ID` claim of its token (both are written from the same payload), and
no two rows belong to the same principal. -/
def StoreInv (s : Store) : Prop :=
  (∀ r ∈ s, r.userId = r.token.user_ID) ∧
  s.Pairwise fun a b => a.userId ≠ b.userId

/-! ## The refresh race: interleaved store accesses of two calls -/

/-- How one in-flight `POST /refreshToken` execution ends: `success` is
the 200 token-pair response, `invalidSession` the handled 403 "Refresh
token expired or invalid" response, and `fault` the uncaught Prisma P2025
error thrown by `refreshToken.delete` when the row is already gone, which
surfaces as a 500, not as the 403 branch. -/
inductive RefreshOutcome where
  | success
  | invalidSession
  | fault
  deriving DecidableEq, Repr

/-- The store-access program counter of one in-flight refresh execution,
after its pure cookie/signature steps: `atLookup` is about to run
`findUnique`, `atDelete` passed the stored-record check and is about to
run `delete`, `atCreate` deleted the row and is about to run `create`. -/
inductive RefreshPhase where
  | atLookup
  | atDelete
  | atCreate
  | finished (o : RefreshOutcome)
  deriving DecidableEq, Repr

/-- One store access of an in-flight refresh of token `t` at clock `now`:
`findUnique` then the absent/expired check, `delete` (throwing P2025 when
the row is gone), and `create` of the rotated row — each a separate
awaited round trip in the source, with no transaction around them. -/
def stepRefresh (t : Token) (now : Nat) (s : Store) :
    RefreshPhase → Store × RefreshPhase
  | .atLookup =>
    match findUnique s t with
    | none => (s, .finished .invalidSession)
    | some stored =>
      if now > stored.expiresAt then (s, .finished .invalidSession)
      else (s, .atDelete)
  | .atDelete =>
    match findUnique s t with
    | none => (s, .finished .fault)
    | some _ => (deleteWhereToken s t, .atCreate)
  | .atCreate =>
    (createRecord s ⟨jwtSign t.user_ID .refreshSecret now (30 * DAY),
      t.user_ID, now + 30 * DAY⟩, .finished .success)
  | .finished o => (s, .finished o)

/-- Interleaved execution of two refresh calls presenting the identical
token `t`: the schedule picks which call performs its next store access
(`true` = first call). -/
def runRace (t : Token) (now : Nat) :
    List Bool → Store × RefreshPhase × RefreshPhase →
      Store × RefreshPhase × RefreshPhase
  | [], st => st
  | b :: rest, (s, p1, p2) =>
    if b then
      let (s', p1') := stepRefresh t now s p1
      runRace t now rest (s', p1', p2)
    else
      let (s', p2') := stepRefresh t now s p2
      runRace t now rest (s', p1, p2')

/-- A phase that has consumed the contested row (its `delete` succeeded). -/
def consumedPhase : RefreshPhase → Bool
  | .atCreate => true
  | .finished .success => true
  | _ => false

/-- Invariant of the two-call race on token `t` whose initial persisted
row is `rec0`: the lookup only ever sees `rec0` or nothing; at most one
call has consumed the row; while the row is present nobody has consumed
it; once it is absent somebody has; and a call can only have finished
without success after the row was gone. -/
def RaceInv (t : Token) (rec0 : RefreshRecord)
    (st : Store × RefreshPhase × RefreshPhase) : Prop :=
  (findUnique st.1 t = some rec0 ∨ findUnique st.1 t = none) ∧
  ¬(consumedPhase st.2.1 = true ∧ consumedPhase st.2.2 = true) ∧
  (findUnique st.1 t = some rec0 →
    consumedPhase st.2.1 = false ∧ consumedPhase st.2.2 = false) ∧
  (findUnique st.1 t = none →
    consumedPhase st.2.1 = true ∨ consumedPhase st.2.2 = true) ∧
  (∀ o, st.2.1 = .finished o → o ≠ .success → findUnique st.1 t = none) ∧
  (∀ o, st.2.2 = .finished o → o ≠ .success → findUnique st.1 t = none)

/-! ## Basic inversion lemmas about the refresh operation -/

/-- Inversion of a successful `POST /refreshToken` run: the guards that
must have held and the exact shape of the result. -/
theorem refreshToken_success_inv (s : Store) (t : Token) (now : Nat)
    (a r : Token) (s' : Store)
    (h : refreshToken s (some t) now = (.success a r, s')) :
    t.secret = .refreshSecret ∧ now < t.exp ∧
    (∃ rec, findUnique s t = some rec ∧ now ≤ rec.expiresAt) ∧
    a = jwtSign t.user_ID .jwtSecret now (1 * HOUR) ∧
    r = jwtSign t.user_ID .refreshSecret now (30 * DAY) ∧
    s' = createRecord (deleteWhereToken s t) ⟨r, t.user_ID, now + 30 * DAY⟩ := by
  by_cases hc : t.secret = .refreshSecret ∧ now < t.exp
  case neg => simp [refreshToken, jwtVerify, hc] at h
  obtain ⟨hsec, hlt⟩ := hc
  have hv : jwtVerify t .refreshSecret now = some t := by
    simp [jwtVerify, hsec, hlt]
  rcases hr : findUnique s t with _ | rec
  · simp [refreshToken, hv, hr] at h
  · by_cases hex : now > rec.expiresAt
    · simp [refreshToken, hv, hr, hex] at h
    · simp only [refreshToken, hv, hr, if_neg hex, Prod.mk.injEq,
        RefreshResult.success.injEq] at h
      refine ⟨hsec, hlt, ⟨rec, rfl, Nat.not_lt.mp hex⟩, h.1.1.symm, h.1.2.symm, ?_⟩
      rw [← h.2, ← h.1.2]

/-- C1: a refresh token consumed by a successful refresh cannot be redeemed
a second time (with no intervening login re-inserting it): after rotation
deleted its row, the lookup finds nothing and the handler takes the 403
"Refresh token expired or invalid" branch.  The replay is presented while
the signed claim is still valid (`now' < t.exp`, the "even immediately
after" case) and at a clock instant other than the token's own `iat`
(at `now = t.iat` the rotation would re-sign the byte-identical token). -/
theorem refresh_rotation_single_use (s : Store) (t : Token) (now now' : Nat)
    (a r : Token) (s' : Store)
    (h : refreshToken s (some t) now = (.success a r, s'))
    (hiat : now ≠ t.iat)
    (hexp : now' < t.exp) :
    refreshToken s' (some t) now' = (.expiredOrInvalid, s') := by
  obtain ⟨hsec, _, _, _, hrdef, hs'⟩ := refreshToken_success_inv s t now a r s' h
  have hrt : r ≠ t := by
    intro hrt
    apply hiat
    rw [← hrt, hrdef]
    rfl
  have hnone : findUnique s' t = none := by
    rw [hs']
    apply List.find?_eq_none.mpr
    intro x hx
    simp only [createRecord, List.mem_append, List.mem_singleton] at hx
    rcases hx with hx | hx
    · have := List.of_mem_filter hx
      simpa using this
    · subst hx
      simpa using hrt
  simp [refreshToken, jwtVerify, hsec, hexp, hnone]

/-- C1 witness: a concrete login-issued refresh token rotated at clock 7
and replayed at clock 9 hits the 403 "Refresh token expired or invalid"
branch. -/
theorem refresh_rotation_single_use_witness :
    refreshToken
      [⟨jwtSign 1 Secret.refreshSecret 7 (30 * DAY), 1, 7 + 30 * DAY⟩]
      (some (jwtSign 1 Secret.refreshSecret 0 1000)) 9 =
      (.expiredOrInvalid,
        [⟨jwtSign 1 Secret.refreshSecret 7 (30 * DAY), 1, 7 + 30 * DAY⟩]) :=
  refresh_rotation_single_use
    [⟨jwtSign 1 Secret.refreshSecret 0 1000, 1, 100⟩]
    (jwtSign 1 Secret.refreshSecret 0 1000) 7 9
    (jwtSign 1 Secret.jwtSecret 7 (1 * HOUR))
    (jwtSign 1 Secret.refreshSecret 7 (30 * DAY))
    [⟨jwtSign 1 Secret.refreshSecret 7 (30 * DAY), 1, 7 + 30 * DAY⟩]
    (by decide) (by decide) (by decide)

/-- C2: the refresh operation enforces the signed-claim expiry and the
persisted-row expiry independently: a passed signed expiry fails in the
verification branch whatever the store holds; a passed persisted expiry
fails in the stored-record branch even while the signed claim is live; and
a success implies both checks passed. -/
theorem refresh_two_independent_expiry_checks (s : Store) (t : Token)
    (now : Nat) :
    (t.secret = .refreshSecret → t.exp ≤ now →
      refreshToken s (some t) now = (.invalidToken, s)) ∧
    (∀ rec, findUnique s t = some rec → t.secret = .refreshSecret →
      now < t.exp → rec.expiresAt < now →
      refreshToken s (some t) now = (.expiredOrInvalid, s)) ∧
    (∀ a r s', refreshToken s (some t) now = (.success a r, s') →
      now < t.exp ∧ ∃ rec, findUnique s t = some rec ∧ now ≤ rec.expiresAt) := by
  refine ⟨?_, ?_, ?_⟩
  · intro hsec hexp
    simp [refreshToken, jwtVerify, Nat.not_lt.mpr hexp]
  · intro rec hrec hsec hlt hex
    simp [refreshToken, jwtVerify, hsec, hlt, hrec, hex]
  · intro a r s' h
    obtain ⟨_, hlt, hrec, _⟩ := refreshToken_success_inv s t now a r s' h
    exact ⟨hlt, hrec⟩

/-- C2 witness: a token whose signed expiry passed is rejected in the
verification branch even though its row is live, and a token whose
persisted row expired is rejected in the stored-record branch even though
its signed claim is live. -/
theorem refresh_two_independent_expiry_checks_witness :
    refreshToken [⟨jwtSign 1 Secret.refreshSecret 0 50, 1, 10 ^ 9⟩]
      (some (jwtSign 1 Secret.refreshSecret 0 50)) 60 =
      (.invalidToken, [⟨jwtSign 1 Secret.refreshSecret 0 50, 1, 10 ^ 9⟩]) ∧
    refreshToken [⟨jwtSign 1 Secret.refreshSecret 0 1000, 1, 100⟩]
      (some (jwtSign 1 Secret.refreshSecret 0 1000)) 200 =
      (.expiredOrInvalid, [⟨jwtSign 1 Secret.refreshSecret 0 1000, 1, 100⟩]) :=
  ⟨(refresh_two_independent_expiry_checks
      [⟨jwtSign 1 Secret.refreshSecret 0 50, 1, 10 ^ 9⟩]
      (jwtSign 1 Secret.refreshSecret 0 50) 60).1 (by decide) (by decide),
   (refresh_two_independent_expiry_checks
      [⟨jwtSign 1 Secret.refreshSecret 0 1000, 1, 100⟩]
      (jwtSign 1 Secret.refreshSecret 0 1000) 200).2.1
      ⟨jwtSign 1 Secret.refreshSecret 0 1000, 1, 100⟩
      (by decide) (by decide) (by decide) (by decide)⟩

/-- C3: Issue (login) then ValidateAccess (`verifyAuth`) with the returned
access token, before the token's 15-minute expiry, succeeds and yields the
principal id embedded at signing: `jwt.sign({user_ID: user.id})` round-trips
through `jwt.verify` back to `user.id`. -/
theorem login_then_validateAccess_roundtrip (users : List User) (s : Store)
    (e p : String) (now now' : Nat) (u : User)
    (hep : ¬ (e = "" ∨ p = ""))
    (hfind : (users.find? fun v => v.email == e) = some u)
    (hpw : bcryptCompare p u.password = true)
    (hid : (users.find? fun v => v.id == u.id).isSome = true)
    (hfresh : now' < now + 15 * MIN) :
    login users s e p now =
      (.success (jwtSign u.id .jwtSecret now (15 * MIN))
        (jwtSign u.id .refreshSecret now (30 * DAY)),
       createRecord (deleteManyUser s u.id)
         ⟨jwtSign u.id .refreshSecret now (30 * DAY), u.id, now + 30 * DAY⟩) ∧
    verifyAuth users (some (jwtSign u.id .jwtSecret now (15 * MIN))) now' =
      .success u.id := by
  constructor
  · simp [login, hep, hfind, hpw]
  · obtain ⟨v, hv⟩ := Option.isSome_iff_exists.mp hid
    simp [verifyAuth, jwtSign, hv, Nat.not_le.mpr hfresh]

/-- C3 witness: the registered principal 1 logs in at clock 0 and the
issued access token validates at clock 100, recovering principal id 1. -/
theorem login_then_validateAccess_roundtrip_witness :
    login [⟨1, "a@x.com", bcryptHash "secret1"⟩] [] "a@x.com" "secret1" 0 =
      (.success (jwtSign 1 Secret.jwtSecret 0 (15 * MIN))
        (jwtSign 1 Secret.refreshSecret 0 (30 * DAY)),
       createRecord (deleteManyUser [] 1)
         ⟨jwtSign 1 Secret.refreshSecret 0 (30 * DAY), 1, 0 + 30 * DAY⟩) ∧
    verifyAuth [⟨1, "a@x.com", bcryptHash "secret1"⟩]
      (some (jwtSign 1 Secret.jwtSecret 0 (15 * MIN))) 100 = .success 1 :=
  login_then_validateAccess_roundtrip [⟨1, "a@x.com", bcryptHash "secret1"⟩]
    [] "a@x.com" "secret1" 0 100 ⟨1, "a@x.com", bcryptHash "secret1"⟩
    (by decide) (by decide) (by decide) (by decide) (by decide)

/-- C4: a successful login first deletes every persisted refresh-token row
of the principal (`deleteMany({ where: { userId } })`) and then inserts the
new one, so immediately afterwards exactly the newly issued refresh token
is persisted for that principal. -/
theorem login_deletes_prior_sessions (users : List User) (s : Store)
    (e p : String) (now : Nat) (u : User) (a r : Token) (s' : Store)
    (hfind : (users.find? fun v => v.email == e) = some u)
    (h : login users s e p now = (.success a r, s')) :
    s'.filter (fun rec => rec.userId == u.id) = [⟨r, u.id, now + 30 * DAY⟩] := by
  by_cases hep : e = "" ∨ p = ""
  · simp [login, hep] at h
  · by_cases hpw : bcryptCompare p u.password = true
    · simp only [login, hfind] at h
      rw [if_neg hep, if_neg (by simp [hpw])] at h
      injection h with h1 h2
      injection h1 with ha hr
      subst hr; subst h2
      simp only [createRecord, deleteManyUser, List.filter_append]
      have h1 : (s.filter fun rec => rec.userId ≠ u.id).filter
          (fun rec => rec.userId == u.id) = [] := by
        rw [List.filter_eq_nil_iff]
        intro rec hrec
        have := List.of_mem_filter hrec
        simp at this ⊢
        exact this
      rw [h1]
      simp
    · simp [login, hep, hfind, hpw] at h

/-- C4 witness: principal 1 logs in while the store holds an old session
row of theirs and a row of principal 2; afterwards principal 1's rows are
exactly the freshly inserted one. -/
theorem login_deletes_prior_sessions_witness :
    (([⟨jwtSign 2 Secret.refreshSecret 0 20, 2, 20⟩,
       ⟨jwtSign 1 Secret.refreshSecret 5 (30 * DAY), 1, 5 + 30 * DAY⟩] :
        Store).filter fun rec => rec.userId == 1) =
      [⟨jwtSign 1 Secret.refreshSecret 5 (30 * DAY), 1, 5 + 30 * DAY⟩] :=
  login_deletes_prior_sessions [⟨1, "a@x.com", bcryptHash "pw"⟩]
    [⟨jwtSign 1 Secret.refreshSecret 0 10, 1, 10⟩,
     ⟨jwtSign 2 Secret.refreshSecret 0 20, 2, 20⟩]
    "a@x.com" "pw" 5 ⟨1, "a@x.com", bcryptHash "pw"⟩
    (jwtSign 1 Secret.jwtSecret 5 (15 * MIN))
    (jwtSign 1 Secret.refreshSecret 5 (30 * DAY))
    [⟨jwtSign 2 Secret.refreshSecret 0 20, 2, 20⟩,
     ⟨jwtSign 1 Secret.refreshSecret 5 (30 * DAY), 1, 5 + 30 * DAY⟩]
    (by decide) (by decide)

/-- C10: a successful refresh preserves the principal: the new access
token, the new refresh token, and the newly inserted row all carry the
`user_ID` of the verified payload of the presented refresh token. -/
theorem refresh_preserves_principal (s : Store) (t : Token) (now : Nat)
    (a r : Token) (s' : Store)
    (h : refreshToken s (some t) now = (.success a r, s')) :
    a.user_ID = t.user_ID ∧ r.user_ID = t.user_ID ∧
      s' = createRecord (deleteWhereToken s t)
        ⟨r, t.user_ID, now + 30 * DAY⟩ := by
  obtain ⟨_, _, _, ha, hr, hs⟩ := refreshToken_success_inv s t now a r s' h
  subst ha; subst hr
  exact ⟨rfl, rfl, hs⟩

/-- C10 witness: a concrete successful refresh of principal 1's token
keeps `user_ID = 1` in both minted tokens and in the inserted row. -/
theorem refresh_preserves_principal_witness :
    (jwtSign 1 Secret.jwtSecret 7 (1 * HOUR)).user_ID =
      (jwtSign 1 Secret.refreshSecret 0 1000).user_ID ∧
    (jwtSign 1 Secret.refreshSecret 7 (30 * DAY)).user_ID =
      (jwtSign 1 Secret.refreshSecret 0 1000).user_ID ∧
    [⟨jwtSign 1 Secret.refreshSecret 7 (30 * DAY), 1, 7 + 30 * DAY⟩] =
      createRecord
        (deleteWhereToken [⟨jwtSign 1 Secret.refreshSecret 0 1000, 1, 100⟩]
          (jwtSign 1 Secret.refreshSecret 0 1000))
        ⟨jwtSign 1 Secret.refreshSecret 7 (30 * DAY),
          (jwtSign 1 Secret.refreshSecret 0 1000).user_ID, 7 + 30 * DAY⟩ :=
  refresh_preserves_principal
    [⟨jwtSign 1 Secret.refreshSecret 0 1000, 1, 100⟩]
    (jwtSign 1 Secret.refreshSecret 0 1000) 7
    (jwtSign 1 Secret.jwtSecret 7 (1 * HOUR))
    (jwtSign 1 Secret.refreshSecret 7 (30 * DAY))
    [⟨jwtSign 1 Secret.refreshSecret 7 (30 * DAY), 1, 7 + 30 * DAY⟩]
    (by decide)

/-! ## Logout (Revoke) -/

/-- Inversion of a successful `GET /logout` run. -/
theorem logout_success_inv (s : Store) (t : Token) (now : Nat) (s' : Store)
    (h : logout s (some t) now = (.success, s')) :
    t.secret = .refreshSecret ∧ now < t.exp ∧
    (∃ rec, findUnique s t = some rec ∧ now ≤ rec.expiresAt) ∧
    s' = deleteWhereToken s t := by
  by_cases hc : t.secret = .refreshSecret ∧ now < t.exp
  case neg => simp [logout, jwtVerify, hc] at h
  obtain ⟨hsec, hlt⟩ := hc
  have hv : jwtVerify t .refreshSecret now = some t := by
    simp [jwtVerify, hsec, hlt]
  rcases hr : findUnique s t with _ | rec
  · simp [logout, hv, hr] at h
  · by_cases hex : now > rec.expiresAt
    · simp [logout, hv, hr, hex] at h
    · simp only [logout, hv, hr, if_neg hex, Prod.mk.injEq] at h
      exact ⟨hsec, hlt, ⟨rec, rfl, Nat.not_lt.mp hex⟩, h.2.symm⟩

/-- C6 counterexample: revoking an unknown (equally: an already-revoked)
refresh token IS an error in the code: with an empty store, `GET /logout`
with a validly signed token takes the 403 "Expired or invalid token"
branch, not the success branch — contradicting "it never errors". -/
theorem revoke_unknown_token_errors :
    (logout [] (some (jwtSign 1 Secret.refreshSecret 0 (30 * DAY))) 5).1 =
      .expiredOrInvalid ∧
    (logout [] (some (jwtSign 1 Secret.refreshSecret 0 (30 * DAY))) 5).1 ≠
      .success := by
  decide

/-- C6 amended: Revoke is not idempotent in the reported sense — an
unknown or already-revoked token is answered with the 403 "Expired or
invalid token" error, not success.  What does hold: a successful Revoke
leaves zero rows matching the presented token, and a second Revoke of the
same token (its signed claim still live) takes the 403 branch and still
leaves zero matching rows. -/
theorem revoke_success_then_second_call_errors (s : Store) (t : Token)
    (now now' : Nat) (s' : Store)
    (h : logout s (some t) now = (.success, s'))
    (hexp : now' < t.exp) :
    (s'.filter fun rec => rec.token = t) = [] ∧
    logout s' (some t) now' = (.expiredOrInvalid, s') := by
  obtain ⟨hsec, _, _, hs'⟩ := logout_success_inv s t now s' h
  have hnil : (s'.filter fun rec => rec.token = t) = [] := by
    rw [hs', deleteWhereToken]
    rw [List.filter_eq_nil_iff]
    intro rec hrec
    have := List.of_mem_filter hrec
    simp at this ⊢
    exact this
  have hnone : findUnique s' t = none := by
    apply List.find?_eq_none.mpr
    intro x hx
    intro hxt
    have : x ∈ s'.filter fun rec => rec.token = t :=
      List.mem_filter.mpr ⟨hx, by simpa using hxt⟩
    rw [hnil] at this
    exact absurd this (List.not_mem_nil x)
  refine ⟨hnil, ?_⟩
  simp [logout, jwtVerify, hsec, hexp, hnone]

/-- C6 witness: principal 1's live session is revoked at clock 5; zero
matching rows remain and the repeated revoke at clock 6 errors with the
403 branch. -/
theorem revoke_success_then_second_call_errors_witness :
    (([] : Store).filter fun rec =>
      rec.token = jwtSign 1 Secret.refreshSecret 0 1000) = [] ∧
    logout [] (some (jwtSign 1 Secret.refreshSecret 0 1000)) 6 =
      (.expiredOrInvalid, []) :=
  revoke_success_then_second_call_errors
    [⟨jwtSign 1 Secret.refreshSecret 0 1000, 1, 100⟩]
    (jwtSign 1 Secret.refreshSecret 0 1000) 5 6 []
    (by decide) (by decide)

/-! ## ValidateAccess (`verifyAuth`) and the user table -/

/-- C8 counterexample: the accept/reject decision of `verifyAuth` is NOT a
pure function of the token and the signing secret: the same token at the
same clock is accepted when the decoded principal exists in the user table
and rejected (401 "User not found") when it does not — the middleware
queries `prisma.user.findUnique` in its success path. -/
theorem validateAccess_depends_on_store :
    verifyAuth [⟨1, "a@x.com", bcryptHash "pw"⟩]
      (some (jwtSign 1 Secret.jwtSecret 0 900)) 10 = .success 1 ∧
    verifyAuth [] (some (jwtSign 1 Secret.jwtSecret 0 900)) 10 =
      .userNotFound ∧
    verifyAuth [⟨1, "a@x.com", bcryptHash "pw"⟩]
      (some (jwtSign 1 Secret.jwtSecret 0 900)) 10 ≠
      verifyAuth [] (some (jwtSign 1 Secret.jwtSecret 0 900)) 10 := by
  decide

/-- C8 amended: `verifyAuth` checks the token's signature and embedded
expiry and additionally performs one read of the user table, rejecting
when the decoded principal is absent; it never writes.  Its decision is a
function of token, secret, clock and user table: success holds exactly
when the signature matches, the expiry has not passed, and the principal
id decoded from the token exists in the table, and any success yields the
decoded `user_ID`. -/
theorem validateAccess_reads_user_table (users : List User) (t : Token)
    (now : Nat) :
    (∀ i, verifyAuth users (some t) now = .success i → i = t.user_ID) ∧
    (verifyAuth users (some t) now = .success t.user_ID ↔
      t.secret = Secret.jwtSecret ∧ now < t.exp ∧
      (users.find? fun u => u.id == t.user_ID).isSome = true) := by
  constructor
  · intro i hi
    rcases hf : users.find? fun u => u.id == t.user_ID with _ | v <;>
      by_cases h1 : t.secret = Secret.jwtSecret <;>
      by_cases h2 : t.exp ≤ now <;>
      simp [verifyAuth, h1, h2, hf] at hi <;>
      try exact hi.symm
  · rcases hf : users.find? fun u => u.id == t.user_ID with _ | v <;>
      by_cases h1 : t.secret = Secret.jwtSecret <;>
      by_cases h2 : t.exp ≤ now <;>
      simp [verifyAuth, h1, h2, hf] <;>
      omega

/-- C8 witness: concrete round trip through the amended
characterisation, both directions at an explicit token and store. -/
theorem validateAccess_reads_user_table_witness :
    verifyAuth [⟨1, "a@x.com", bcryptHash "pw"⟩]
      (some (jwtSign 1 Secret.jwtSecret 0 900)) 10 =
      .success (jwtSign 1 Secret.jwtSecret 0 900).user_ID ∧
    (1 : Nat) = (jwtSign 1 Secret.jwtSecret 0 900).user_ID :=
  ⟨(validateAccess_reads_user_table [⟨1, "a@x.com", bcryptHash "pw"⟩]
      (jwtSign 1 Secret.jwtSecret 0 900) 10).2.mpr
      ⟨by decide, by decide, by decide⟩,
   (validateAccess_reads_user_table [⟨1, "a@x.com", bcryptHash "pw"⟩]
      (jwtSign 1 Secret.jwtSecret 0 900) 10).1 1 (by decide)⟩

/-! ## Login failure responses -/

/-- C9 counterexample: the wrong-password response and the unknown-email
response are NOT identical: both are HTTP 401 with `status: "error"` and
`code: 401`, but the message fields differ ("Password is incorrect" vs
"User doesn't exist"), so a caller can distinguish the two cases. -/
theorem login_error_shape_distinguishable :
    (login [⟨1, "a@x.com", bcryptHash "secret1"⟩] [] "a@x.com" "wrong" 0).1 =
      .failure ⟨401, "error", "Password is incorrect", 401⟩ ∧
    (login [⟨1, "a@x.com", bcryptHash "secret1"⟩] [] "b@x.com" "secret1" 0).1 =
      .failure ⟨401, "error", "User doesn't exist", 401⟩ ∧
    (login [⟨1, "a@x.com", bcryptHash "secret1"⟩] [] "a@x.com" "wrong" 0).1 ≠
    (login [⟨1, "a@x.com", bcryptHash "secret1"⟩] [] "b@x.com" "secret1" 0).1 := by
  decide

/-- C9 amended: wrong password and unknown email agree on the HTTP status
(401) and the envelope (`status: "error"`, `code: 401`) and neither issues
tokens or touches the store, but the `message` fields differ, so the
responses are not identical and the two cases are distinguishable. -/
theorem login_error_shapes (users : List User) (s s' : Store)
    (e p e' p' : String) (now now' : Nat) (u : User)
    (hep : ¬ (e = "" ∨ p = ""))
    (hfind : (users.find? fun v => v.email == e) = some u)
    (hpw : bcryptCompare p u.password = false)
    (hep' : ¬ (e' = "" ∨ p' = ""))
    (hfind' : (users.find? fun v => v.email == e') = none) :
    login users s e p now =
      (.failure ⟨401, "error", "Password is incorrect", 401⟩, s) ∧
    login users s' e' p' now' =
      (.failure ⟨401, "error", "User doesn't exist", 401⟩, s') ∧
    ("Password is incorrect" : String) ≠ "User doesn't exist" := by
  refine ⟨?_, ?_, by decide⟩
  · simp [login, hep, hfind, hpw]
  · simp [login, hep', hfind']

/-- C9 witness: the two concrete failure responses, via the amended
theorem. -/
theorem login_error_shapes_witness :
    login [⟨1, "a@x.com", bcryptHash "secret1"⟩] [] "a@x.com" "wrong" 0 =
      (.failure ⟨401, "error", "Password is incorrect", 401⟩, []) ∧
    login [⟨1, "a@x.com", bcryptHash "secret1"⟩] [] "b@x.com" "secret1" 0 =
      (.failure ⟨401, "error", "User doesn't exist", 401⟩, []) ∧
    ("Password is incorrect" : String) ≠ "User doesn't exist" :=
  login_error_shapes [⟨1, "a@x.com", bcryptHash "secret1"⟩] [] []
    "a@x.com" "wrong" "b@x.com" "secret1" 0 0
    ⟨1, "a@x.com", bcryptHash "secret1"⟩
    (by decide) (by decide) (by decide) (by decide) (by decide)

/-! ## The per-principal session invariant -/

/-- A filtered store keeps the invariant. -/
theorem storeInv_filter (s : Store) (q : RefreshRecord → Bool)
    (hinv : StoreInv s) : StoreInv (s.filter q) :=
  ⟨fun r hr => hinv.1 r (List.mem_of_mem_filter hr),
    hinv.2.sublist (List.filter_sublist s)⟩

/-- Appending one fresh row to a sub-store that holds no row of the same
principal keeps the invariant. -/
theorem storeInv_insert (s s₁ : Store) (tok : Token) (uid ex : Nat)
    (hsub : List.Sublist s₁ s) (hinv : StoreInv s)
    (htok : tok.user_ID = uid)
    (hcross : ∀ a ∈ s₁, a.userId ≠ uid) :
    StoreInv (createRecord s₁ ⟨tok, uid, ex⟩) := by
  obtain ⟨haux, hpw⟩ := hinv
  constructor
  · intro r hr
    rw [createRecord, List.mem_append] at hr
    rcases hr with hr | hr
    · exact haux r (hsub.subset hr)
    · simp only [List.mem_singleton] at hr
      subst hr
      exact htok.symm
  · rw [createRecord, List.pairwise_append]
    refine ⟨hpw.sublist hsub, List.pairwise_singleton _ _, ?_⟩
    intro a ha b hb
    simp only [List.mem_singleton] at hb
    subst hb
    exact hcross a ha

/-- The symmetry of the distinct-principal relation. -/
theorem userId_ne_symm :
    Symmetric fun a b : RefreshRecord => a.userId ≠ b.userId :=
  fun _ _ h he => h he.symm

/-- Every session-manager transition preserves the store invariant:
login deletes all rows of the principal before inserting one, refresh
deletes the consumed row (the principal's only row) and inserts one for
the same principal, and logout only filters. -/
theorem sessionStep_storeInv {s s' : Store} (hinv : StoreInv s)
    (hstep : SessionStep s s') : StoreInv s' := by
  cases hstep with
  | loginStep users s e p now =>
    by_cases hep : e = "" ∨ p = ""
    · simpa [login, hep] using hinv
    · rcases hfind : users.find? fun v => v.email == e with _ | u
      · simpa [login, hep, hfind] using hinv
      · by_cases hpw : bcryptCompare p u.password = true
        · have hru : (login users s e p now).2 =
              createRecord (deleteManyUser s u.id)
                ⟨jwtSign u.id .refreshSecret now (30 * DAY), u.id,
                  now + 30 * DAY⟩ := by
            simp [login, hep, hfind, hpw]
          rw [hru]
          apply storeInv_insert s _ _ _ _ (List.filter_sublist s) hinv rfl
          intro a ha
          simpa using List.of_mem_filter ha
        · simpa [login, hep, hfind, hpw] using hinv
  | refreshStep s c now =>
    rcases c with _ | t
    · simpa [refreshToken] using hinv
    · by_cases hc : t.secret = Secret.refreshSecret ∧ now < t.exp
      case neg => simpa [refreshToken, jwtVerify, hc] using hinv
      obtain ⟨hsec, hlt⟩ := hc
      have hv : jwtVerify t .refreshSecret now = some t := by
        simp [jwtVerify, hsec, hlt]
      rcases hr : findUnique s t with _ | rec
      · simpa [refreshToken, hv, hr] using hinv
      · by_cases hex : now > rec.expiresAt
        · simpa [refreshToken, hv, hr, hex] using hinv
        · have hru : (refreshToken s (some t) now).2 =
              createRecord (deleteWhereToken s t)
                ⟨jwtSign t.user_ID .refreshSecret now (30 * DAY), t.user_ID,
                  now + 30 * DAY⟩ := by
            simp [refreshToken, hv, hr, hex]
          rw [hru]
          apply storeInv_insert s _ _ _ _ (List.filter_sublist s) hinv rfl
          intro a ha hau
          have hane : a.token ≠ t := by simpa using List.of_mem_filter ha
          have hrec0mem : rec ∈ s := List.mem_of_find?_eq_some hr
          have hrec0tok : rec.token = t := by simpa using List.find?_some hr
          have hrec0uid : rec.userId = t.user_ID := by
            rw [hinv.1 rec hrec0mem, hrec0tok]
          have hanerec : a ≠ rec := fun he => hane (he ▸ hrec0tok)
          exact hinv.2.forall userId_ne_symm (List.mem_of_mem_filter ha)
            hrec0mem hanerec (hau.trans hrec0uid.symm)
  | logoutStep s c now =>
    rcases c with _ | t
    · simpa [logout] using hinv
    · by_cases hc : t.secret = Secret.refreshSecret ∧ now < t.exp
      case neg => simpa [logout, jwtVerify, hc] using hinv
      obtain ⟨hsec, hlt⟩ := hc
      have hv : jwtVerify t .refreshSecret now = some t := by
        simp [jwtVerify, hsec, hlt]
      rcases hr : findUnique s t with _ | rec
      · simpa [logout, hv, hr] using hinv
      · by_cases hex : now > rec.expiresAt
        · simpa [logout, hv, hr, hex] using hinv
        · have hru : (logout s (some t) now).2 = deleteWhereToken s t := by
            simp [logout, hv, hr, hex]
          rw [hru]
          exact storeInv_filter s _ hinv

/-- Every reachable store satisfies the invariant. -/
theorem reachableStore_storeInv {s : Store} (h : ReachableStore s) :
    StoreInv s := by
  induction h with
  | empty => exact ⟨by simp, List.Pairwise.nil⟩
  | step _ hstep ih => exact sessionStep_storeInv ih hstep

/-- A pairwise-distinct-principal list has at most one row satisfying any
predicate that pins the principal. -/
theorem pairwise_userId_filter_length {l : Store} {p : RefreshRecord → Bool}
    {u : Nat} (hpw : l.Pairwise fun a b => a.userId ≠ b.userId)
    (hp : ∀ r, p r = true → r.userId = u) :
    (l.filter p).length ≤ 1 := by
  have hpw' : (l.filter p).Pairwise fun a b => a.userId ≠ b.userId :=
    hpw.sublist (List.filter_sublist l)
  rcases hfl : l.filter p with _ | ⟨a, tl⟩
  · simp
  · rcases tl with _ | ⟨b, tl'⟩
    · simp
    · exfalso
      rw [hfl] at hpw'
      have hab := (List.pairwise_cons.mp hpw').1 b (by simp)
      have ha : p a = true := by
        have hm : a ∈ l.filter p := by rw [hfl]; simp
        exact (List.mem_filter.mp hm).2
      have hb : p b = true := by
        have hm : b ∈ l.filter p := by rw [hfl]; simp
        exact (List.mem_filter.mp hm).2
      exact hab ((hp a ha).trans (hp b hb).symm)

/-- C5: in every store reachable from the empty table via Issue (login),
Refresh, and Revoke (logout), at most one valid (non-expired — and
non-rotated, since rotation deletes the consumed row) refresh-token
record exists per principal. -/
theorem at_most_one_valid_token_per_principal (s : Store)
    (h : ReachableStore s) (u now : Nat) :
    (s.filter fun r => r.userId == u && decide (now ≤ r.expiresAt)).length ≤ 1 := by
  apply pairwise_userId_filter_length (reachableStore_storeInv h).2
  intro r hr
  simp only [Bool.and_eq_true, beq_iff_eq] at hr
  exact hr.1

/-- C5 witness: the store reached by one concrete login satisfies the
per-principal bound. -/
theorem at_most_one_valid_token_per_principal_witness :
    ((login [⟨1, "a@x.com", bcryptHash "pw"⟩] [] "a@x.com" "pw" 0).2.filter
      fun r => r.userId == 1 && decide ((50 : Nat) ≤ r.expiresAt)).length ≤ 1 :=
  at_most_one_valid_token_per_principal _
    (ReachableStore.step ReachableStore.empty
      (SessionStep.loginStep [⟨1, "a@x.com", bcryptHash "pw"⟩] []
        "a@x.com" "pw" 0)) 1 50

/-! ## The refresh race -/

/-- After `deleteWhereToken`, the token is no longer found. -/
theorem findUnique_deleteWhereToken (s : Store) (t : Token) :
    findUnique (deleteWhereToken s t) t = none := by
  apply List.find?_eq_none.mpr
  intro x hx
  have := List.of_mem_filter hx
  simpa using this

/-- Inserting a row with a different token keeps the lookup empty. -/
theorem findUnique_createRecord_ne (s : Store) (r : RefreshRecord)
    (t : Token) (hne : r.token ≠ t) (h : findUnique s t = none) :
    findUnique (createRecord s r) t = none := by
  apply List.find?_eq_none.mpr
  intro x hx
  rw [createRecord, List.mem_append] at hx
  rcases hx with hx | hx
  · exact List.find?_eq_none.mp h x hx
  · simp only [List.mem_singleton] at hx
    subst hx
    simpa using hne

/-- The race invariant is symmetric in the two calls. -/
theorem raceInv_swap {t : Token} {rec0 : RefreshRecord}
    {s : Store} {p1 p2 : RefreshPhase}
    (h : RaceInv t rec0 (s, p1, p2)) : RaceInv t rec0 (s, p2, p1) := by
  obtain ⟨hA, hB, hC, hE, hF1, hF2⟩ := h
  exact ⟨hA, fun hx => hB ⟨hx.2, hx.1⟩, fun hx => ⟨(hC hx).2, (hC hx).1⟩,
    fun hx => (hE hx).symm, hF2, hF1⟩

/-- One store access of the first call preserves the race invariant
(for an initially unexpired row and a rotation clock other than the
token's own `iat`, where the rotated token would be byte-identical). -/
theorem stepRefresh_raceInv {t : Token} {rec0 : RefreshRecord} {now : Nat}
    (hunexp : now ≤ rec0.expiresAt) (hiat : now ≠ t.iat)
    {s : Store} {p1 p2 : RefreshPhase}
    (h : RaceInv t rec0 (s, p1, p2)) :
    RaceInv t rec0
      ((stepRefresh t now s p1).1, (stepRefresh t now s p1).2, p2) := by
  obtain ⟨hA, hB, hC, hE, hF1, hF2⟩ := h
  cases p1 with
  | atLookup =>
    rcases hA with hA | hA
    · have hstep : stepRefresh t now s .atLookup = (s, .atDelete) := by
        simp [stepRefresh, hA, Nat.not_lt.mpr hunexp]
      rw [hstep]
      refine ⟨Or.inl hA, ?_, ?_, ?_, ?_, hF2⟩
      · intro hx; exact absurd hx.1 (by simp [consumedPhase])
      · intro hx; exact ⟨rfl, (hC hA).2⟩
      · intro hn; rw [hA] at hn; cases hn
      · intro o ho; exact absurd ho (by simp)
    · have hstep : stepRefresh t now s .atLookup =
          (s, .finished .invalidSession) := by
        simp [stepRefresh, hA]
      rw [hstep]
      refine ⟨Or.inr hA, ?_, ?_, ?_, ?_, hF2⟩
      · intro hx; exact absurd hx.1 (by simp [consumedPhase])
      · intro hx; rw [hA] at hx; cases hx
      · intro hn
        rcases hE hn with hcons | hcons
        · exact absurd hcons (by simp [consumedPhase])
        · exact Or.inr hcons
      · intro o ho hne; exact hA
  | atDelete =>
    rcases hA with hA | hA
    · have hstep : stepRefresh t now s .atDelete =
          (deleteWhereToken s t, .atCreate) := by
        simp [stepRefresh, hA]
      rw [hstep]
      have hnone := findUnique_deleteWhereToken s t
      refine ⟨Or.inr hnone, ?_, ?_, ?_, ?_, ?_⟩
      · intro hx; rw [(hC hA).2] at hx; exact absurd hx.2 (by simp)
      · intro hx; rw [hnone] at hx; cases hx
      · intro _; exact Or.inl rfl
      · intro o ho; exact absurd ho (by simp)
      · intro o ho hne; exact hnone
    · have hstep : stepRefresh t now s .atDelete = (s, .finished .fault) := by
        simp [stepRefresh, hA]
      rw [hstep]
      refine ⟨Or.inr hA, ?_, ?_, ?_, ?_, hF2⟩
      · intro hx; exact absurd hx.1 (by simp [consumedPhase])
      · intro hx; rw [hA] at hx; cases hx
      · intro hn
        rcases hE hn with hcons | hcons
        · exact absurd hcons (by simp [consumedPhase])
        · exact Or.inr hcons
      · intro o ho hne; exact hA
  | atCreate =>
    have hnone : findUnique s t = none := by
      rcases hA with hA | hA
      · exact absurd (hC hA).1 (by simp [consumedPhase])
      · exact hA
    have hstep : stepRefresh t now s .atCreate =
        (createRecord s ⟨jwtSign t.user_ID .refreshSecret now (30 * DAY),
          t.user_ID, now + 30 * DAY⟩, .finished .success) := rfl
    rw [hstep]
    have hnone' : findUnique (createRecord s
        ⟨jwtSign t.user_ID .refreshSecret now (30 * DAY),
          t.user_ID, now + 30 * DAY⟩) t = none := by
      apply findUnique_createRecord_ne s _ t _ hnone
      intro he
      exact hiat (congrArg Token.iat he)
    refine ⟨Or.inr hnone', ?_, ?_, ?_, ?_, ?_⟩
    · intro hx; exact hB ⟨rfl, hx.2⟩
    · intro hx; rw [hnone'] at hx; cases hx
    · intro _; exact Or.inl rfl
    · intro o ho hne; exact hnone'
    · intro o ho hne; exact hnone'
  | finished o =>
    exact ⟨hA, hB, hC, hE, hF1, hF2⟩

/-- Every interleaving preserves the race invariant. -/
theorem runRace_raceInv {t : Token} {rec0 : RefreshRecord} {now : Nat}
    (hunexp : now ≤ rec0.expiresAt) (hiat : now ≠ t.iat) :
    ∀ (sched : List Bool) (st : Store × RefreshPhase × RefreshPhase),
      RaceInv t rec0 st → RaceInv t rec0 (runRace t now sched st) := by
  intro sched
  induction sched with
  | nil => intro st h; simpa [runRace] using h
  | cons b rest ih =>
    intro st h
    rcases st with ⟨s, p1, p2⟩
    rcases b with _ | _
    · have h2 := raceInv_swap (stepRefresh_raceInv hunexp hiat (raceInv_swap h))
      simpa [runRace] using ih _ h2
    · have h1 := stepRefresh_raceInv hunexp hiat h
      simpa [runRace] using ih _ h1

/-- C7 counterexample: with both racing calls passing the lookup before
either deletes (schedule: call 1 lookup, call 2 lookup, call 1 delete,
call 1 create, call 2 delete), BOTH interleaved executions observe the
pre-rotation record — the existence check and the delete are separate
store operations, not one atomic conditional — and the loser ends in the
uncaught-P2025 fault (surfaced as a 500), not in the 403
invalid-session branch the claim promises. -/
theorem concurrent_refresh_race_loser_faults :
    (runRace (jwtSign 1 Secret.refreshSecret 0 (30 * DAY)) 7
      [true, false, true, true, false]
      ([⟨jwtSign 1 Secret.refreshSecret 0 (30 * DAY), 1, 100⟩],
        .atLookup, .atLookup)).2 =
      (.finished .success, .finished .fault) ∧
    RefreshOutcome.fault ≠ RefreshOutcome.invalidSession := by
  decide

/-- C7 amended: of two interleaved refresh calls presenting the identical
refresh token (initial row present and unexpired, rotation clock distinct
from the token's `iat`), at most one — and, when both run to completion,
exactly one — mints a token pair; but the loser's failure is the 403
invalid-session branch only when its lookup ran after the winner's
delete, and is the uncaught record-to-delete-missing fault (a 500) when
both lookups preceded the delete: the existence check and the delete are
two separate store round trips, not one atomic conditional operation. -/
theorem concurrent_refresh_exactly_one_success (s0 : Store) (t : Token)
    (rec0 : RefreshRecord) (now : Nat) (sched : List Bool)
    (s' : Store) (o1 o2 : RefreshOutcome)
    (hrec : findUnique s0 t = some rec0)
    (hunexp : now ≤ rec0.expiresAt)
    (hiat : now ≠ t.iat)
    (hrun : runRace t now sched (s0, .atLookup, .atLookup) =
      (s', .finished o1, .finished o2)) :
    ((o1 = .success ∧ o2 ≠ .success) ∨ (o2 = .success ∧ o1 ≠ .success)) ∧
    (o1 = .invalidSession ∨ o1 = .fault ∨ o1 = .success) ∧
    (o2 = .invalidSession ∨ o2 = .fault ∨ o2 = .success) := by
  have hinit : RaceInv t rec0 (s0, .atLookup, .atLookup) := by
    refine ⟨Or.inl hrec, ?_, ?_, ?_, ?_, ?_⟩
    · intro hx; exact absurd hx.1 (by simp [consumedPhase])
    · intro _; exact ⟨rfl, rfl⟩
    · intro hn; rw [hrec] at hn; cases hn
    · intro o ho; exact absurd ho (by simp)
    · intro o ho; exact absurd ho (by simp)
  have hfin := runRace_raceInv hunexp hiat sched _ hinit
  rw [hrun] at hfin
  obtain ⟨hA, hB, hC, hE, hF1, hF2⟩ := hfin
  refine ⟨?_, by cases o1 <;> simp, by cases o2 <;> simp⟩
  by_cases h1 : o1 = .success
  · subst h1
    refine Or.inl ⟨rfl, ?_⟩
    intro h2; subst h2
    exact hB ⟨rfl, rfl⟩
  · by_cases h2 : o2 = .success
    · exact Or.inr ⟨h2, h1⟩
    · exfalso
      have hn : findUnique s' t = none := hF1 o1 rfl h1
      rcases hE hn with hcons | hcons
      · cases o1 with
        | success => exact h1 rfl
        | invalidSession => exact absurd hcons (by simp [consumedPhase])
        | fault => exact absurd hcons (by simp [consumedPhase])
      · cases o2 with
        | success => exact h2 rfl
        | invalidSession => exact absurd hcons (by simp [consumedPhase])
        | fault => exact absurd hcons (by simp [consumedPhase])

/-- C7 witness: the amended theorem applied to the concrete racy
schedule in which both calls pass the lookup: the winner succeeds, the
loser faults. -/
theorem concurrent_refresh_exactly_one_success_witness :
    ((RefreshOutcome.success = RefreshOutcome.success ∧
        RefreshOutcome.fault ≠ RefreshOutcome.success) ∨
      (RefreshOutcome.fault = RefreshOutcome.success ∧
        RefreshOutcome.success ≠ RefreshOutcome.success)) ∧
    (RefreshOutcome.success = RefreshOutcome.invalidSession ∨
      RefreshOutcome.success = RefreshOutcome.fault ∨
      RefreshOutcome.success = RefreshOutcome.success) ∧
    (RefreshOutcome.fault = RefreshOutcome.invalidSession ∨
      RefreshOutcome.fault = RefreshOutcome.fault ∨
      RefreshOutcome.fault = RefreshOutcome.success) :=
  concurrent_refresh_exactly_one_success
    [⟨jwtSign 1 Secret.refreshSecret 0 (30 * DAY), 1, 100⟩]
    (jwtSign 1 Secret.refreshSecret 0 (30 * DAY))
    ⟨jwtSign 1 Secret.refreshSecret 0 (30 * DAY), 1, 100⟩ 7
    [true, false, true, true, false]
    [⟨jwtSign 1 Secret.refreshSecret 7 (30 * DAY), 1, 7 + 30 * DAY⟩]
    .success .fault
    (by decide) (by decide) (by decide) (by decide)

end BlogPost
